import Mathlib

/-!
Verification of the batch video-LLM judging harness (src/lmm_judge.py).

The development embeds the single source file shallowly:

* `response_parse` is embedded as a left-to-right scan equivalent to the
  regular expression used by the source, including the detail that the
  end-of-text anchor also matches just before a final newline.
* `run_one_prompt` is embedded as a pure function over an explicit
  filesystem value.  Mapping accesses that can raise a Python `KeyError`
  become `Option` lookups; the external dataset accessor and the judge
  client become fields of an `Env` record whose `none` results stand for
  raised exceptions (the source treats both as exceptions).
* The process-pool orchestrator `multi_process_request` is embedded as a
  fold over the batch: every submitted task runs to completion (the pool
  shutdown waits for all of them) and any per-task exception is re-raised
  by the result collection loop, which the embedding reports as `.error`.

The judge client (`call_gpt4o.request`) and the dataset loader are
external collaborators per the specification and are parameters of the
embedding.  `dump_jsonl` comes from a `utils` module that is not part of
the sources, so it is modelled from the specification.
-/

namespace LmmJudge

/-- ASCII whitespace characters removed by the `strip` calls of the source
(space, tab, newline, carriage return, vertical tab, form feed). -/
def isStripChar (c : Char) : Bool :=
  c = ' ' || c = '\t' || c = '\n' || c = '\r' || c = '\x0b' || c = '\x0c'

/-- `str.strip()` on a character list: drop whitespace from both ends. -/
def trimChars (l : List Char) : List Char :=
  ((l.dropWhile isStripChar).reverse.dropWhile isStripChar).reverse

/-- The backtick character (used by the fenced-block markers). -/
def backtick : Char := Char.ofNat 96

/-- Three backticks, the fenced-block marker of the source regex. -/
def fenceMarker : List Char := [backtick, backtick, backtick]

/-- First alternative of the substitution in `response_parse`
(source line 85): remove a leading triple backtick, greedily together
with one following newline, anchored at the start of the value. -/
def dropFenceOpen (l : List Char) : List Char :=
  if l.take 4 = fenceMarker ++ ['\n'] then l.drop 4
  else if l.take 3 = fenceMarker then l.drop 3
  else l

/-- Second alternative of the substitution in `response_parse`
(source line 85): remove a trailing triple backtick, greedily together
with one preceding newline, anchored at the end of the value.  Because the
value was stripped first, the two alternatives cannot overlap beyond what
these two sequential rewrites perform, so applying them in order agrees
with the single substitution pass of the source. -/
def dropFenceClose (l : List Char) : List Char :=
  if l.reverse.take 4 = fenceMarker ++ ['\n'] then (l.reverse.drop 4).reverse
  else if l.reverse.take 3 = fenceMarker then (l.reverse.drop 3).reverse
  else l

/-- State of the scan performed by the source regex
`\[(.*?)\](.*?)(?=\[|$)` with `re.DOTALL` over the judge reply:
either looking for an opening bracket, accumulating a label, or
accumulating a section body. -/
inductive ScanState where
  | outside
  | inKey (acc : List Char)
  | inBody (key acc : List Char)

/-- The end-of-text anchor of the source pattern also matches just before
a newline that ends the text, so a body that runs to the end of the text
excludes one final newline. -/
def dropFinalNl (acc : List Char) : List Char :=
  if acc.getLast? = some '\n' then acc.dropLast else acc

/-- One left-to-right pass equivalent to `re.finditer` with the source
pattern: a label is everything between an opening bracket and the first
closing bracket after it, and its body runs until the next opening
bracket or the end of the text; a label with no closing bracket until the
end of the text matches nothing. -/
def parseLoop : ScanState → List Char → List (List Char × List Char)
  | ScanState.outside, [] => []
  | ScanState.inKey _, [] => []
  | ScanState.inBody key acc, [] => [(key, dropFinalNl acc)]
  | ScanState.outside, c :: rest =>
    if c = '[' then parseLoop (ScanState.inKey []) rest
    else parseLoop ScanState.outside rest
  | ScanState.inKey acc, c :: rest =>
    if c = ']' then parseLoop (ScanState.inBody acc []) rest
    else parseLoop (ScanState.inKey (acc ++ [c])) rest
  | ScanState.inBody key acc, c :: rest =>
    if c = '[' then (key, acc) :: parseLoop (ScanState.inKey []) rest
    else parseLoop (ScanState.inBody key (acc ++ [c])) rest

/-- `match.group(1).strip()` of the source. -/
def stripKey (k : List Char) : String := String.mk (trimChars k)

/-- `match.group(2).strip()` followed by the fence-marker substitution. -/
def stripValue (v : List Char) : String :=
  String.mk (dropFenceClose (dropFenceOpen (trimChars v)))

/-- All raw matches of the pattern over the text, with the per-match
stripping applied. -/
def responseEntries (text : List Char) : List (String × String) :=
  (parseLoop ScanState.outside text).map (fun p => (stripKey p.1, stripValue p.2))

/-- Python dict assignment `d[k] = v`: replace the value of an existing
key in place, otherwise append the new binding. -/
def dictInsert (d : List (String × String)) (k v : String) :
    List (String × String) :=
  if d.any (fun p => p.1 == k) then
    d.map (fun p => if p.1 == k then (k, v) else p)
  else d ++ [(k, v)]

/-- Python dict read `d[k]`, as an `Option` (a missing key raises
`KeyError` in the source). -/
def dictGet (d : List (String × String)) (k : String) : Option String :=
  (d.find? (fun p => p.1 == k)).map (fun p => p.2)

/-- `response_parse` (source lines 77-88): collect every bracket-labelled
section of the text into a mapping, later occurrences of a label
overwriting earlier ones. -/
def response_parse (text : String) : List (String × String) :=
  (responseEntries text.data).foldl (fun d p => dictInsert d p.1 p.2) []

/-- Whether the text contains a bracket-delimited label at all: an opening
bracket with some closing bracket after it.  Only the first opening
bracket needs to be examined, because any closing bracket after a later
opening bracket also lies after the first one. -/
def hasLabelB (l : List Char) : Bool :=
  match l.dropWhile (fun c => c != '[') with
  | [] => false
  | _ :: r => r.contains ']'

/-- An evaluation sample: a JSON object with string values, embedded as
an association list with Python-dict access functions. -/
abbrev Sample := List (String × String)

/-- Opaque stand-in for the sampled visual inputs that the dataset
accessor returns for a video identifier. -/
abbrev VideoInputs := String

/-- The filesystem restricted to what the harness touches: a map from
output path to the list of JSON records stored in that file (one record
per line). -/
abbrev FS := List (String × List Sample)

/-- Content of the file at a path, when it exists. -/
def fsLookup (fs : FS) (p : String) : Option (List Sample) :=
  (fs.find? (fun e => e.1 == p)).map (fun e => e.2)

/-- `os.path.exists` on the embedded filesystem. -/
def fsExists (fs : FS) (p : String) : Bool :=
  (fsLookup fs p).isSome

/-- Modelled from the spec: `dump_jsonl` comes from the `utils` module,
which is not among the sources; per the specification it writes the given
records to the path, one line of JSON per record, so the file at the path
afterwards holds exactly those records. -/
def dump_jsonl (records : List Sample) (path : String) (fs : FS) : FS :=
  if fs.any (fun e => e.1 == path) then
    fs.map (fun e => if e.1 == path then (path, records) else e)
  else fs ++ [(path, records)]

/-- The external collaborators of the task runner: the dataset accessor
(`video_data.get_w_video_id(...)["inputs"]`, `none` standing for the
exception raised on an unknown video identifier) and the judge client
(`call_gpt4o.request`, `none` standing for any exception it raises). -/
structure Env where
  get_w_video_id : String → Option VideoInputs
  request : VideoInputs → String → Option String

/-- The fixed template `PROMPTS["role"]` up to the persona placeholder. -/
def PROMPTS_role_p1 : String :=
  "**Remember: You are watching a Video.**\n\nA user, characterized by a specific persona, is interacting with two AI assistant models (A and B) to better understand video content using the same question. Here is the user\x27s persona:\n```persona\n"

/-- The template between the persona and question placeholders. -/
def PROMPTS_role_p2 : String :=
  "\n```\n\nThe user\x27s question is:\n```question\n"

/-- The template between the question and answer-A placeholders. -/
def PROMPTS_role_p3 : String :=
  "\n```\n\nThe response from Model A is:\n```model_a\n"

/-- The template between the answer-A and answer-B placeholders. -/
def PROMPTS_role_p4 : String :=
  "\n```\n\nThe response from Model B is:\n```model_b\n"

/-- The template after the answer-B placeholder. -/
def PROMPTS_role_p5 : String :=
  "\n```\n\nPlease act as an impartial judge and carefully evaluate the responses of Model A and Model B to determine which one is better. Use the following standards:\n\n1. [Instruction Following]: The response should closely adhere to the user\x27s instructions, ensuring it directly addresses the specified task.\n2. [Accuracy]: The response must accurately utilize information from the video, avoiding fabrication or misquotation. It should maintain factual correctness, avoid hallucinations, and demonstrate contextual coherence with precise terminology and knowledge.\n3. [Relevance]: The response should consider the user\x27s background information and needs, providing a comprehensive, detailed answer that addresses the question directly without straying off-topic. Responses should be thorough, offering multiple perspectives where relevant.\n4. [Helpfulness]: The response should provide valuable information to aid the user in understanding or solving their issue, avoiding irrelevant or vague content.\n\nIf the responses from Model A and Model B are of similar quality (whether both are good or both are bad), you may declare a tie.\n\n**Please follow these steps for your judgment:**\n\n- Step 1: Analyze which model provides a better response for the [Instruction Following] standard.\n- Step 2: Analyze which model provides a better response for the [Accuracy] standard.\n- Step 3: Analyze which model provides a better response for the [Relevance] standard.\n- Step 4: Analyze which model provides a better response for the [Helpfulness] standard.\n- Step 5: Based on the results from Steps 1-4, determine the overall outcome: Model A, Model B, Tie (both are good), or Tie (both are bad).\n\nPlease respond strictly in the following format:\n\n```[Instruction Following]\n[Your Analysis]\n```\n\n```[Accuracy]\n[Your Analysis]\n```\n\n```[Relevance]\n[Your Analysis]\n```\n\n```[Helpfulness]\n[Your Analysis]\n```\n\n```[Overall Judge]\nA/B/Tie\n```"

/-- `PROMPTS["role"].format(...)`: substitute the four values into the
template (`str.format` performs no recursive substitution, so this is
plain concatenation). -/
def format_role (persona question answer_a answer_b : String) : String :=
  PROMPTS_role_p1 ++ persona ++ PROMPTS_role_p2 ++ question ++
    PROMPTS_role_p3 ++ answer_a ++ PROMPTS_role_p4 ++ answer_b ++
    PROMPTS_role_p5

/-- `os.path.join(output_dir, qid + ".jsonl")` for a relative file name. -/
def pathOf (output_dir qid : String) : String :=
  output_dir ++ "/" ++ qid ++ ".jsonl"

/-- Observable outcome of one `run_one_prompt` call: an exception escaped
the call, the call skipped an existing file, the call caught an exception
and logged the video identifier with the intended output path, or the
call wrote the output file. -/
inductive RunResult where
  | raised (msg : String)
  | skipped (path : String)
  | logged (video_id output_path : String)
  | wrote (path : String)
  deriving Repr, DecidableEq

/-- Whether a run outcome is an exception escaping `run_one_prompt`. -/
def isRaised : RunResult → Bool
  | RunResult.raised _ => true
  | _ => false

/-- The record persisted on success: the sample with the raw reply stored
under the key `GPT4o Judge response` and then every parsed section merged
in by dict assignment (source lines 116-120). -/
def enrich (sample : Sample) (response : String) : Sample :=
  (response_parse response).foldl (fun s p => dictInsert s p.1 p.2)
    (dictInsert sample "GPT4o Judge response" response)

/-- `run_one_prompt` (source lines 90-128).  The six required fields are
read first; a missing one raises a `KeyError` before anything else
happens.  The existence check follows, then the dataset lookup, which is
outside the `try` block, so an unknown video identifier also raises.
Inside the `try` block the prompt is built, the judge is called, the
reply is parsed and merged, and the record is written; the only fallible
operation among these in the embedding is the judge call, whose failure
is caught and logged. -/
def run_one_prompt (env : Env) (sample : Sample) (output_dir : String)
    (fs : FS) : RunResult × FS :=
  match dictGet sample "video_id" with
  | none => (RunResult.raised "KeyError: video_id", fs)
  | some video_id =>
  match dictGet sample "qid" with
  | none => (RunResult.raised "KeyError: qid", fs)
  | some qid =>
  match dictGet sample "persona" with
  | none => (RunResult.raised "KeyError: persona", fs)
  | some persona =>
  match dictGet sample "question" with
  | none => (RunResult.raised "KeyError: question", fs)
  | some question =>
  match dictGet sample "model a answer" with
  | none => (RunResult.raised "KeyError: model a answer", fs)
  | some model_a_answer =>
  match dictGet sample "model b answer" with
  | none => (RunResult.raised "KeyError: model b answer", fs)
  | some model_b_answer =>
  let output_path := pathOf output_dir qid
  if fsExists fs output_path then
    (RunResult.skipped output_path, fs)
  else
    match env.get_w_video_id video_id with
    | none => (RunResult.raised ("unknown video_id: " ++ video_id), fs)
    | some video_inputs =>
      match env.request video_inputs
          (format_role persona question model_a_answer model_b_answer) with
      | none => (RunResult.logged video_id output_path, fs)
      | some response =>
        (RunResult.wrote output_path,
          dump_jsonl [enrich sample response] output_path fs)

/-- The six required fields of an evaluation sample. -/
def requiredFields : List String :=
  ["video_id", "qid", "persona", "question", "model a answer",
    "model b answer"]

/-- A sample carries all six required fields. -/
def wellFormed (s : Sample) : Bool :=
  requiredFields.all (fun f => (dictGet s f).isSome)

/-- The qid of a sample (defaulting to the empty string; every use below
assumes the field is present). -/
def qidOf (s : Sample) : String :=
  (dictGet s "qid").getD ""

/-- The output path the task runner computes for a sample. -/
def samplePath (output_dir : String) (s : Sample) : String :=
  pathOf output_dir (qidOf s)

/-- The judge-client outcome that `run_one_prompt` would observe for a
sample: `none` whenever a required field is missing, the video is
unknown, or the judge call itself fails. -/
def judgeCall (env : Env) (s : Sample) : Option String :=
  match dictGet s "video_id", dictGet s "persona", dictGet s "question",
      dictGet s "model a answer", dictGet s "model b answer" with
  | some vid, some pe, some qu, some a, some b =>
    match env.get_w_video_id vid with
    | some vi => env.request vi (format_role pe qu a b)
    | none => none
  | _, _, _, _, _ => none

/-- All tasks of the batch, run to completion in submission order,
threading the filesystem; the second component collects the messages of
the exceptions that escaped their task (the pool shutdown waits for every
submitted task, so later tasks still run after an earlier failure). -/
def runBatch (env : Env) (data : List Sample) (output_dir : String)
    (fs : FS) : FS × List String :=
  match data with
  | [] => (fs, [])
  | s :: rest =>
    let r := run_one_prompt env s output_dir fs
    let b := runBatch env rest output_dir r.2
    match r.1 with
    | RunResult.raised m => (b.1, m :: b.2)
    | _ => b

/-- `multi_process_request` (source lines 130-153): dispatch every sample
and collect results; `job.result()` re-raises the first per-task
exception inside the orchestrator, aborting the batch run. -/
def multi_process_request (env : Env) (data : List Sample)
    (output_dir : String) (fs : FS) : Except String FS :=
  let b := runBatch env data output_dir fs
  match b.2 with
  | [] => Except.ok b.1
  | m :: _ => Except.error m

/-- The files a batch over an initially empty output directory produces:
one per sample whose judge call succeeds. -/
def produced (env : Env) (output_dir : String) (data : List Sample) : FS :=
  data.filterMap (fun s =>
    (judgeCall env s).map (fun r => (samplePath output_dir s, [enrich s r])))

/-- Keys of an embedded dict. -/
def dKeys (d : List (String × String)) : List String := d.map Prod.fst

/-! Concrete fixtures used by witnesses and counterexamples. -/

/-- A well-formed sample. -/
def sampleW : Sample :=
  [("video_id", "v1"), ("qid", "s1"), ("persona", "p"), ("question", "q"),
    ("model a answer", "a"), ("model b answer", "b")]

/-- A sample missing the required `persona` field. -/
def sampleBad : Sample :=
  [("video_id", "v1"), ("qid", "s1"), ("question", "q"),
    ("model a answer", "a"), ("model b answer", "b")]

/-- A second well-formed sample with distinct qid and video. -/
def sampleW2 : Sample :=
  [("video_id", "v2"), ("qid", "s2"), ("persona", "p2"), ("question", "q2"),
    ("model a answer", "a2"), ("model b answer", "b2")]

/-- An environment whose dataset knows every video and whose judge always
replies with a minimal well-formed verdict. -/
def envOk : Env where
  get_w_video_id := fun v => some v
  request := fun _ _ => some "[Overall Judge]\nA\n"

/-- An environment whose dataset knows no video at all. -/
def envNoVideo : Env where
  get_w_video_id := fun _ => none
  request := fun _ _ => some "[Overall Judge]\nA\n"

/-- An environment whose judge call always raises. -/
def envJudgeFail : Env where
  get_w_video_id := fun v => some v
  request := fun _ _ => none

/-- An environment whose judge raises exactly on the inputs of video
`v1` and succeeds elsewhere. -/
def envOneFail : Env where
  get_w_video_id := fun v => some v
  request := fun vi _ => if vi == "v1" then none else some "[Overall Judge]\nA\n"

/-- An environment whose judge replies with a section labelled `qid`,
colliding with a required field of the sample. -/
def envQidReply : Env where
  get_w_video_id := fun v => some v
  request := fun _ _ => some "[qid]\nX\n"

/-- A filesystem already holding the output file of `sampleW`. -/
def fsWithS1 : FS := [("out/s1.jsonl", [sampleW])]

/-- The minimal well-formed judge reply used by the end-to-end scenario. -/
def respW : String := "[Overall Judge]\nA\n"

/-! ### Association-list lemmas -/

theorem dictGet_nil (k : String) : dictGet [] k = none := rfl

theorem dictGet_cons (p : String × String) (d : List (String × String))
    (k : String) :
    dictGet (p :: d) k = if p.1 == k then some p.2 else dictGet d k := by
  by_cases h : (p.1 == k) = true
  · simp [dictGet, List.find?_cons_of_pos, h]
  · simp [dictGet, List.find?_cons_of_neg, h]

theorem dictInsert_of_absent (d : List (String × String)) (k v : String)
    (h : d.any (fun p => p.1 == k) = false) :
    dictInsert d k v = d ++ [(k, v)] := by
  simp [dictInsert, h]

theorem dictInsert_of_present (d : List (String × String)) (k v : String)
    (h : d.any (fun p => p.1 == k) = true) :
    dictInsert d k v = d.map (fun p => if p.1 == k then (k, v) else p) := by
  simp [dictInsert, h]

theorem dictGet_append_single_ne (d : List (String × String)) (k v k' : String)
    (h : k' ≠ k) : dictGet (d ++ [(k, v)]) k' = dictGet d k' := by
  induction d with
  | nil =>
    rw [List.nil_append, dictGet_cons]
    have hb : (k == k') = false := beq_eq_false_iff_ne.mpr (Ne.symm h)
    simp [hb, dictGet_nil]
  | cons p d ih =>
    rw [List.cons_append, dictGet_cons, dictGet_cons, ih]

theorem dictGet_mapReplace_ne (d : List (String × String)) (k v k' : String)
    (h : k' ≠ k) :
    dictGet (d.map (fun p => if p.1 == k then (k, v) else p)) k' =
      dictGet d k' := by
  induction d with
  | nil => rfl
  | cons p d ih =>
    rw [List.map_cons, dictGet_cons, dictGet_cons]
    by_cases hp : (p.1 == k) = true
    · have hpk : p.1 = k := by simpa using hp
      rw [if_pos hp]
      have hkk' : (k == k') = false := by simp [Ne.symm h]
      have hpk' : (p.1 == k') = false := by rw [hpk]; exact hkk'
      simp only [hkk', hpk', Bool.false_eq_true, if_false]
      exact ih
    · have hp' : (p.1 == k) = false := by simpa using hp
      simp only [hp', Bool.false_eq_true, if_false]
      by_cases hpk' : (p.1 == k') = true
      · simp [hpk']
      · have h2 : (p.1 == k') = false := by simpa using hpk'
        simp only [h2, Bool.false_eq_true, if_false]
        exact ih

theorem dictGet_dictInsert_ne (d : List (String × String)) (k v k' : String)
    (h : k' ≠ k) : dictGet (dictInsert d k v) k' = dictGet d k' := by
  by_cases hany : d.any (fun p => p.1 == k) = true
  · rw [dictInsert_of_present d k v hany]
    exact dictGet_mapReplace_ne d k v k' h
  · rw [dictInsert_of_absent d k v (by simpa only [Bool.not_eq_true] using hany)]
    exact dictGet_append_single_ne d k v k' h

theorem dictGet_dictInsert_self (d : List (String × String)) (k v : String) :
    dictGet (dictInsert d k v) k = some v := by
  induction d with
  | nil =>
    rw [dictInsert_of_absent _ _ _ (by simp), List.nil_append, dictGet_cons]
    simp
  | cons p d ih =>
    by_cases hp : (p.1 == k) = true
    · rw [dictInsert_of_present _ _ _ (by simp [List.any_cons, hp]),
        List.map_cons, if_pos hp, dictGet_cons]
      simp
    · have hp' : (p.1 == k) = false := by simpa using hp
      by_cases hd : d.any (fun q => q.1 == k) = true
      · rw [dictInsert_of_present _ _ _
          (by simp only [List.any_cons, hp', Bool.false_or]; exact hd),
          List.map_cons]
        simp only [hp', Bool.false_eq_true, if_false]
        rw [dictGet_cons]
        simp only [hp', Bool.false_eq_true, if_false]
        rw [← dictInsert_of_present d k v hd]
        exact ih
      · have hd' : d.any (fun q => q.1 == k) = false := by
          simpa only [Bool.not_eq_true] using hd
        rw [dictInsert_of_absent _ _ _
          (by simp only [List.any_cons, hp', Bool.false_or]; exact hd'),
          List.cons_append, dictGet_cons]
        simp only [hp', Bool.false_eq_true, if_false]
        rw [← dictInsert_of_absent d k v hd']
        exact ih

theorem mem_dictInsert (q : String × String) (d : List (String × String))
    (k v : String) (h : q ∈ dictInsert d k v) : q ∈ d ∨ q = (k, v) := by
  by_cases hany : d.any (fun p => p.1 == k) = true
  · rw [dictInsert_of_present d k v hany] at h
    obtain ⟨p, hp, he⟩ := List.mem_map.1 h
    by_cases hpk : (p.1 == k) = true
    · right
      rw [← he, if_pos hpk]
    · left
      rw [← he]
      simpa [hpk] using hp
  · rw [dictInsert_of_absent d k v (by simpa only [Bool.not_eq_true] using hany)] at h
    rcases List.mem_append.1 h with h | h
    · exact Or.inl h
    · exact Or.inr (by simpa using h)

theorem mem_foldl_dictInsert (l : List (String × String)) :
    ∀ (d : List (String × String)) (q : String × String),
      q ∈ l.foldl (fun s p => dictInsert s p.1 p.2) d → q ∈ d ∨ q ∈ l := by
  induction l with
  | nil =>
    intro d q h
    exact Or.inl h
  | cons p l ih =>
    intro d q h
    rw [List.foldl_cons] at h
    rcases ih _ q h with h | h
    · rcases mem_dictInsert q d p.1 p.2 h with h | h
      · exact Or.inl h
      · exact Or.inr (by rw [h]; exact List.mem_cons_self _ _)
    · exact Or.inr (List.mem_cons_of_mem _ h)

theorem dictGet_foldl_of_absent (l : List (String × String)) :
    ∀ (d : List (String × String)) (k : String),
      (∀ p ∈ l, p.1 ≠ k) →
      dictGet (l.foldl (fun s p => dictInsert s p.1 p.2) d) k = dictGet d k := by
  induction l with
  | nil =>
    intro d k _
    rfl
  | cons p l ih =>
    intro d k h
    rw [List.foldl_cons,
      ih _ k (fun q hq => h q (List.mem_cons_of_mem _ hq)),
      dictGet_dictInsert_ne]
    exact fun e => h p (List.mem_cons_self _ _) e.symm

theorem dKeys_dictInsert_of_present (d : List (String × String)) (k v : String)
    (h : d.any (fun p => p.1 == k) = true) :
    dKeys (dictInsert d k v) = dKeys d := by
  rw [dictInsert_of_present d k v h]
  unfold dKeys
  rw [List.map_map]
  apply List.map_congr_left
  intro p _
  by_cases hp : (p.1 == k) = true
  · have : p.1 = k := by simpa using hp
    simp [Function.comp, hp, this]
  · have hp' : (p.1 == k) = false := by simpa using hp
    simp [Function.comp, hp']

theorem dKeys_dictInsert_of_absent (d : List (String × String)) (k v : String)
    (h : d.any (fun p => p.1 == k) = false) :
    dKeys (dictInsert d k v) = dKeys d ++ [k] := by
  rw [dictInsert_of_absent d k v h]
  unfold dKeys
  rw [List.map_append]
  rfl

theorem mem_dKeys (d : List (String × String)) (k : String) :
    k ∈ dKeys d ↔ ∃ p ∈ d, p.1 = k := by
  simp [dKeys, List.mem_map]

theorem not_mem_dKeys_of_absent (d : List (String × String)) (k : String)
    (h : d.any (fun p => p.1 == k) = false) : k ∉ dKeys d := by
  intro hk
  obtain ⟨p, hp, he⟩ := (mem_dKeys d k).1 hk
  have h2 : d.any (fun p => p.1 == k) = true :=
    List.any_eq_true.2 ⟨p, hp, show (p.1 == k) = true by rw [he]; exact beq_self_eq_true k⟩
  rw [h] at h2
  exact Bool.false_ne_true h2

theorem nodup_dKeys_dictInsert (d : List (String × String)) (k v : String)
    (h : (dKeys d).Nodup) : (dKeys (dictInsert d k v)).Nodup := by
  by_cases hany : d.any (fun p => p.1 == k) = true
  · rw [dKeys_dictInsert_of_present d k v hany]
    exact h
  · have hany' : d.any (fun p => p.1 == k) = false := by
      simpa only [Bool.not_eq_true] using hany
    rw [dKeys_dictInsert_of_absent d k v hany']
    rw [List.nodup_append]
    exact ⟨h, List.nodup_singleton k,
      by simpa [List.disjoint_singleton] using not_mem_dKeys_of_absent d k hany'⟩

theorem nodup_dKeys_foldl (l : List (String × String)) :
    ∀ (d : List (String × String)), (dKeys d).Nodup →
      (dKeys (l.foldl (fun s p => dictInsert s p.1 p.2) d)).Nodup := by
  induction l with
  | nil =>
    intro d h
    exact h
  | cons p l ih =>
    intro d h
    rw [List.foldl_cons]
    exact ih _ (nodup_dKeys_dictInsert d p.1 p.2 h)

theorem response_parse_keys_nodup (text : String) :
    (dKeys (response_parse text)).Nodup :=
  nodup_dKeys_foldl _ [] (by simp [dKeys])

theorem dictGet_foldl_of_mem (l : List (String × String)) :
    ∀ (d : List (String × String)) (k v : String),
      (k, v) ∈ l → (dKeys l).Nodup →
      dictGet (l.foldl (fun s p => dictInsert s p.1 p.2) d) k = some v := by
  induction l with
  | nil =>
    intro d k v hm _
    exact absurd hm (List.not_mem_nil _)
  | cons p l ih =>
    intro d k v hm hnd
    rw [List.foldl_cons]
    have hnd' : p.1 ∉ dKeys l ∧ (dKeys l).Nodup := by
      have h2 := hnd
      unfold dKeys at h2
      rw [List.map_cons, List.nodup_cons] at h2
      exact h2
    rcases List.mem_cons.1 hm with he | hm'
    · have hk : k = p.1 := congrArg Prod.fst he
      have hv : v = p.2 := congrArg Prod.snd he
      subst hk
      subst hv
      rw [dictGet_foldl_of_absent l _ p.1
        (fun q hq e => hnd'.1 (e ▸ (mem_dKeys l q.1).2 ⟨q, hq, rfl⟩))]
      exact dictGet_dictInsert_self d p.1 p.2
    · exact ih _ k v hm' hnd'.2

theorem isSome_dictGet_dictInsert (d : List (String × String)) (k v f : String)
    (h : (dictGet d f).isSome = true) :
    (dictGet (dictInsert d k v) f).isSome = true := by
  by_cases hf : f = k
  · subst hf
    rw [dictGet_dictInsert_self]
    rfl
  · rw [dictGet_dictInsert_ne d k v f hf]
    exact h

theorem isSome_dictGet_foldl (l : List (String × String)) :
    ∀ (d : List (String × String)) (f : String),
      (dictGet d f).isSome = true →
      (dictGet (l.foldl (fun s p => dictInsert s p.1 p.2) d) f).isSome = true := by
  induction l with
  | nil =>
    intro d f h
    exact h
  | cons p l ih =>
    intro d f h
    rw [List.foldl_cons]
    exact ih _ f (isSome_dictGet_dictInsert d p.1 p.2 f h)

/-! ### Parser lemmas -/

theorem mem_trimChars (c : Char) (l : List Char) (h : c ∈ trimChars l) :
    c ∈ l := by
  unfold trimChars at h
  rw [List.mem_reverse] at h
  have h2 := (List.dropWhile_sublist (l := (l.dropWhile isStripChar).reverse)
    (p := isStripChar)).subset h
  rw [List.mem_reverse] at h2
  exact (List.dropWhile_sublist (l := l) (p := isStripChar)).subset h2

theorem mem_dropFenceOpen (c : Char) (l : List Char)
    (h : c ∈ dropFenceOpen l) : c ∈ l := by
  unfold dropFenceOpen at h
  split at h
  · exact List.mem_of_mem_drop h
  · split at h
    · exact List.mem_of_mem_drop h
    · exact h

theorem mem_dropFenceClose (c : Char) (l : List Char)
    (h : c ∈ dropFenceClose l) : c ∈ l := by
  unfold dropFenceClose at h
  split at h
  · rw [List.mem_reverse] at h
    exact List.mem_reverse.1 (List.mem_of_mem_drop h)
  · split at h
    · rw [List.mem_reverse] at h
      exact List.mem_reverse.1 (List.mem_of_mem_drop h)
    · exact h

theorem mem_stripValue (c : Char) (v : List Char)
    (h : c ∈ (stripValue v).data) : c ∈ v :=
  mem_trimChars c v (mem_dropFenceOpen c _ (mem_dropFenceClose c _ h))

theorem mem_dropFinalNl (c : Char) (l : List Char) (h : c ∈ dropFinalNl l) :
    c ∈ l := by
  unfold dropFinalNl at h
  split at h
  · exact List.dropLast_subset l h
  · exact h

theorem parseLoop_body_no_bracket (l : List Char) :
    ∀ (st : ScanState),
      (∀ k a, st = ScanState.inBody k a → '[' ∉ a) →
      ∀ q ∈ parseLoop st l, '[' ∉ q.2 := by
  induction l with
  | nil =>
    intro st hst q hq
    cases st with
    | outside => simp [parseLoop] at hq
    | inKey a => simp [parseLoop] at hq
    | inBody k a =>
      simp only [parseLoop, List.mem_singleton] at hq
      rw [hq]
      exact fun hc => hst k a rfl (mem_dropFinalNl _ _ hc)
  | cons c rest ih =>
    intro st hst q hq
    cases st with
    | outside =>
      by_cases hc : c = '['
      · rw [show parseLoop ScanState.outside (c :: rest) =
            parseLoop (ScanState.inKey []) rest by simp [parseLoop, hc]] at hq
        exact ih _ (fun k a h => ScanState.noConfusion h) q hq
      · rw [show parseLoop ScanState.outside (c :: rest) =
            parseLoop ScanState.outside rest by simp [parseLoop, hc]] at hq
        exact ih _ (fun k a h => ScanState.noConfusion h) q hq
    | inKey acc =>
      by_cases hc : c = ']'
      · rw [show parseLoop (ScanState.inKey acc) (c :: rest) =
            parseLoop (ScanState.inBody acc []) rest by simp [parseLoop, hc]] at hq
        refine ih _ ?_ q hq
        intro k a h
        cases h
        exact List.not_mem_nil _
      · rw [show parseLoop (ScanState.inKey acc) (c :: rest) =
            parseLoop (ScanState.inKey (acc ++ [c])) rest by
              simp [parseLoop, hc]] at hq
        exact ih _ (fun k a h => ScanState.noConfusion h) q hq
    | inBody key acc =>
      have hacc : '[' ∉ acc := hst key acc rfl
      by_cases hc : c = '['
      · rw [show parseLoop (ScanState.inBody key acc) (c :: rest) =
            (key, acc) :: parseLoop (ScanState.inKey []) rest by
              simp [parseLoop, hc]] at hq
        rcases List.mem_cons.1 hq with he | hm
        · rw [he]
          exact hacc
        · exact ih _ (fun k a h => ScanState.noConfusion h) q hm
      · rw [show parseLoop (ScanState.inBody key acc) (c :: rest) =
            parseLoop (ScanState.inBody key (acc ++ [c])) rest by
              simp [parseLoop, hc]] at hq
        refine ih _ ?_ q hq
        intro k a h
        cases h
        intro hmem
        rcases List.mem_append.1 hmem with h2 | h2
        · exact hacc h2
        · exact hc (List.mem_singleton.1 h2).symm

theorem parseLoop_inKey_no_close (l : List Char) :
    ∀ (a : List Char), ']' ∉ l → parseLoop (ScanState.inKey a) l = [] := by
  induction l with
  | nil =>
    intro a _
    rfl
  | cons c rest ih =>
    intro a h
    have hc : c ≠ ']' := fun e => h (e ▸ List.mem_cons_self c rest)
    rw [show parseLoop (ScanState.inKey a) (c :: rest) =
        parseLoop (ScanState.inKey (a ++ [c])) rest by simp [parseLoop, hc]]
    exact ih _ (fun hm => h (List.mem_cons_of_mem c hm))

theorem parseLoop_outside_no_label (l : List Char)
    (h : hasLabelB l = false) : parseLoop ScanState.outside l = [] := by
  induction l with
  | nil => rfl
  | cons c rest ih =>
    by_cases hc : c = '['
    · subst hc
      have hdrop : (('[' : Char) :: rest).dropWhile (fun c => c != '[') =
          '[' :: rest := by
        rw [List.dropWhile_cons_of_neg]
        simp
      unfold hasLabelB at h
      rw [hdrop] at h
      have h2 : rest.contains ']' = false := h
      have hnc : ']' ∉ rest := by
        intro hm
        have h3 : rest.contains ']' = true := List.elem_eq_true_of_mem hm
        rw [h3] at h2
        exact Bool.noConfusion h2
      rw [show parseLoop ScanState.outside ('[' :: rest) =
          parseLoop (ScanState.inKey []) rest by simp [parseLoop]]
      exact parseLoop_inKey_no_close rest [] hnc
    · have hdrop : ((c : Char) :: rest).dropWhile (fun c => c != '[') =
          rest.dropWhile (fun c => c != '[') := by
        rw [List.dropWhile_cons_of_pos]
        simp [hc]
      unfold hasLabelB at h
      rw [hdrop] at h
      rw [show parseLoop ScanState.outside (c :: rest) =
          parseLoop ScanState.outside rest by simp [parseLoop, hc]]
      exact ih h

/-! ### Parser claims -/

/-- C5: on the well-formed reply fragment, the parser yields exactly the
mapping sending `A` to `foo` and `B` to `bar`; the body of `B` is trimmed
and its triple-backtick fence markers (with their adjacent newlines) are
stripped. -/
theorem C5_parser_roundtrip :
    response_parse "[A]\nfoo\n[B]\n```\nbar\n```\n" = [("A", "foo"), ("B", "bar")] := by
  decide

/-- C7: when the same label occurs twice, the body of the last occurrence
is the one kept in the resulting mapping. -/
theorem C7_duplicate_label_last_wins :
    response_parse "[X]\none\n[X]\ntwo\n" = [("X", "two")] := by
  decide

/-- C6: on any input with no bracket-delimited label (no opening bracket
followed by a closing bracket), the parser returns the empty mapping; it
is a total function, so it never raises. -/
theorem C6_no_label_empty (text : String) (h : hasLabelB text.data = false) :
    response_parse text = [] := by
  unfold response_parse responseEntries
  rw [parseLoop_outside_no_label text.data h]
  rfl

/-- Witness for C6 at a concrete label-free input. -/
theorem C6_no_label_empty_witness :
    hasLabelB "no bracket labels at all".data = false ∧
      response_parse "no bracket labels at all" = [] :=
  ⟨by decide, C6_no_label_empty "no bracket labels at all" (by decide)⟩

/-- C9: every body value in a parsed mapping is free of the opening
bracket character, because an opening bracket inside a body terminates
that body. -/
theorem C9_values_bracket_free (text : String) (q : String × String)
    (hq : q ∈ response_parse text) : '[' ∉ q.2.data := by
  rcases mem_foldl_dictInsert _ _ _ hq with h | h
  · exact absurd h (List.not_mem_nil q)
  · unfold responseEntries at h
    obtain ⟨p, hp, he⟩ := List.mem_map.1 h
    have hb : '[' ∉ p.2 :=
      parseLoop_body_no_bracket text.data ScanState.outside
        (fun k a h2 => ScanState.noConfusion h2) p hp
    rw [← he]
    exact fun hc => hb (mem_stripValue '[' p.2 hc)

/-- Witness for C9 at a concrete reply containing brackets around and
after the section bodies. -/
theorem C9_values_bracket_free_witness :
    ("A", "foo") ∈ response_parse "[A]\nfoo\n[B]z[w" ∧
      '[' ∉ (("A", "foo") : String × String).2.data :=
  ⟨by decide,
    C9_values_bracket_free "[A]\nfoo\n[B]z[w" ("A", "foo") (by decide)⟩

/-! ### Filesystem lemmas -/

theorem fsLookup_nil (p : String) : fsLookup [] p = none := rfl

theorem fsLookup_cons (e : String × List Sample) (fs : FS) (p : String) :
    fsLookup (e :: fs) p = if e.1 == p then some e.2 else fsLookup fs p := by
  by_cases h : (e.1 == p) = true
  · simp [fsLookup, List.find?_cons_of_pos, h]
  · simp [fsLookup, List.find?_cons_of_neg, h]

theorem fsExists_eq_false_elim (fs : FS) (p : String)
    (h : fsExists fs p = false) : ∀ e ∈ fs, e.1 ≠ p := by
  intro e he hp
  have hfind : (List.find? (fun e => e.1 == p) fs).isSome = true :=
    List.find?_isSome.2 ⟨e, he,
      show (e.1 == p) = true by rw [hp]; exact beq_self_eq_true p⟩
  obtain ⟨x, hx⟩ := Option.isSome_iff_exists.1 hfind
  unfold fsExists fsLookup at h
  rw [hx] at h
  simp at h

theorem dump_jsonl_of_absent (r : List Sample) (p : String) (fs : FS)
    (h : fsExists fs p = false) : dump_jsonl r p fs = fs ++ [(p, r)] := by
  have hall := fsExists_eq_false_elim fs p h
  have hany : fs.any (fun e => e.1 == p) = false := by
    rw [List.any_eq_false]
    intro e he
    simpa using hall e he
  simp [dump_jsonl, hany]

theorem fsLookup_append_self (fs : FS) (p : String) (r : List Sample)
    (h : fsExists fs p = false) : fsLookup (fs ++ [(p, r)]) p = some r := by
  induction fs with
  | nil =>
    rw [List.nil_append, fsLookup_cons]
    simp
  | cons e fs ih =>
    have he : e.1 ≠ p := fsExists_eq_false_elim (e :: fs) p h e
      (List.mem_cons_self e fs)
    have h2 : fsExists fs p = false := by
      unfold fsExists at h ⊢
      rw [fsLookup_cons] at h
      have hb : (e.1 == p) = false := beq_eq_false_iff_ne.mpr he
      rw [hb] at h
      simpa using h
    rw [List.cons_append, fsLookup_cons]
    have hb : (e.1 == p) = false := beq_eq_false_iff_ne.mpr he
    rw [hb]
    simp only [Bool.false_eq_true, if_false]
    exact ih h2

theorem fsExists_append_single (fs : FS) (p0 : String) (r : List Sample)
    (p : String) :
    fsExists (fs ++ [(p0, r)]) p = (fsExists fs p || p0 == p) := by
  induction fs with
  | nil =>
    unfold fsExists
    rw [List.nil_append, fsLookup_cons, fsLookup_nil]
    by_cases h : (p0 == p) = true
    · simp [h]
    · have h' : (p0 == p) = false := by simpa only [Bool.not_eq_true] using h
      simp [h']
  | cons e fs ih =>
    unfold fsExists at ih ⊢
    rw [List.cons_append, fsLookup_cons, fsLookup_cons]
    by_cases h : (e.1 == p) = true
    · simp [h]
    · have h' : (e.1 == p) = false := by simpa only [Bool.not_eq_true] using h
      simp only [h', Bool.false_eq_true, if_false]
      exact ih

theorem fsLookup_eq_none_of_all_ne (fs : FS) (p : String)
    (h : ∀ e ∈ fs, e.1 ≠ p) : fsLookup fs p = none := by
  unfold fsLookup
  rw [List.find?_eq_none.2 (fun e he => by simpa using h e he)]
  rfl

/-! ### Task-runner case lemmas -/

theorem run_one_prompt_eq_skipped (env : Env) (s : Sample) (dir : String)
    (fs : FS) (vid q pe qu a b : String)
    (h1 : dictGet s "video_id" = some vid) (h2 : dictGet s "qid" = some q)
    (h3 : dictGet s "persona" = some pe) (h4 : dictGet s "question" = some qu)
    (h5 : dictGet s "model a answer" = some a)
    (h6 : dictGet s "model b answer" = some b)
    (hex : fsExists fs (pathOf dir q) = true) :
    run_one_prompt env s dir fs = (RunResult.skipped (pathOf dir q), fs) := by
  simp [run_one_prompt, h1, h2, h3, h4, h5, h6, hex]

theorem run_one_prompt_eq_raised_video (env : Env) (s : Sample) (dir : String)
    (fs : FS) (vid q pe qu a b : String)
    (h1 : dictGet s "video_id" = some vid) (h2 : dictGet s "qid" = some q)
    (h3 : dictGet s "persona" = some pe) (h4 : dictGet s "question" = some qu)
    (h5 : dictGet s "model a answer" = some a)
    (h6 : dictGet s "model b answer" = some b)
    (hnex : fsExists fs (pathOf dir q) = false)
    (hv : env.get_w_video_id vid = none) :
    run_one_prompt env s dir fs =
      (RunResult.raised ("unknown video_id: " ++ vid), fs) := by
  simp [run_one_prompt, h1, h2, h3, h4, h5, h6, hnex, hv]

theorem run_one_prompt_eq_logged (env : Env) (s : Sample) (dir : String)
    (fs : FS) (vid q pe qu a b vi : String)
    (h1 : dictGet s "video_id" = some vid) (h2 : dictGet s "qid" = some q)
    (h3 : dictGet s "persona" = some pe) (h4 : dictGet s "question" = some qu)
    (h5 : dictGet s "model a answer" = some a)
    (h6 : dictGet s "model b answer" = some b)
    (hnex : fsExists fs (pathOf dir q) = false)
    (hv : env.get_w_video_id vid = some vi)
    (hr : env.request vi (format_role pe qu a b) = none) :
    run_one_prompt env s dir fs =
      (RunResult.logged vid (pathOf dir q), fs) := by
  simp [run_one_prompt, h1, h2, h3, h4, h5, h6, hnex, hv, hr]

theorem run_one_prompt_eq_wrote (env : Env) (s : Sample) (dir : String)
    (fs : FS) (vid q pe qu a b vi resp : String)
    (h1 : dictGet s "video_id" = some vid) (h2 : dictGet s "qid" = some q)
    (h3 : dictGet s "persona" = some pe) (h4 : dictGet s "question" = some qu)
    (h5 : dictGet s "model a answer" = some a)
    (h6 : dictGet s "model b answer" = some b)
    (hnex : fsExists fs (pathOf dir q) = false)
    (hv : env.get_w_video_id vid = some vi)
    (hr : env.request vi (format_role pe qu a b) = some resp) :
    run_one_prompt env s dir fs =
      (RunResult.wrote (pathOf dir q),
        dump_jsonl [enrich s resp] (pathOf dir q) fs) := by
  simp [run_one_prompt, h1, h2, h3, h4, h5, h6, hnex, hv, hr]

theorem wellFormed_elim (s : Sample) (h : wellFormed s = true) :
    ∃ vid q pe qu a b,
      dictGet s "video_id" = some vid ∧ dictGet s "qid" = some q ∧
      dictGet s "persona" = some pe ∧ dictGet s "question" = some qu ∧
      dictGet s "model a answer" = some a ∧
      dictGet s "model b answer" = some b := by
  unfold wellFormed requiredFields at h
  simp only [List.all_cons, List.all_nil, Bool.and_true, Bool.and_eq_true] at h
  obtain ⟨hv, hq, hp, hqu, ha, hb⟩ := h
  obtain ⟨vid, h1⟩ := Option.isSome_iff_exists.1 hv
  obtain ⟨q, h2⟩ := Option.isSome_iff_exists.1 hq
  obtain ⟨pe, h3⟩ := Option.isSome_iff_exists.1 hp
  obtain ⟨qu, h4⟩ := Option.isSome_iff_exists.1 hqu
  obtain ⟨a, h5⟩ := Option.isSome_iff_exists.1 ha
  obtain ⟨b, h6⟩ := Option.isSome_iff_exists.1 hb
  exact ⟨vid, q, pe, qu, a, b, h1, h2, h3, h4, h5, h6⟩

theorem qidOf_eq (s : Sample) (q : String) (h : dictGet s "qid" = some q) :
    qidOf s = q := by
  unfold qidOf
  rw [h]
  rfl

/-! ### Task-runner claims -/

/-- C2: for a sample with all six required fields present whose output
file already exists, the call returns a skip with the filesystem
unchanged; the environment (hence the judge client) is universally
quantified and never consulted, so no judge invocation happens and the
existing file is byte-for-byte unchanged. -/
theorem C2_existing_output_skips (env : Env) (s : Sample) (dir : String)
    (fs : FS) (hwf : wellFormed s = true)
    (hex : fsExists fs (samplePath dir s) = true) :
    run_one_prompt env s dir fs =
      (RunResult.skipped (samplePath dir s), fs) := by
  obtain ⟨vid, q, pe, qu, a, b, h1, h2, h3, h4, h5, h6⟩ := wellFormed_elim s hwf
  have hq : samplePath dir s = pathOf dir q := by
    unfold samplePath
    rw [qidOf_eq s q h2]
  rw [hq] at hex ⊢
  exact run_one_prompt_eq_skipped env s dir fs vid q pe qu a b
    h1 h2 h3 h4 h5 h6 hex

/-- Witness for C2 on a concrete sample whose output file pre-exists. -/
theorem C2_existing_output_skips_witness :
    run_one_prompt envOk sampleW "out" fsWithS1 =
      (RunResult.skipped (samplePath "out" sampleW), fsWithS1) :=
  C2_existing_output_skips envOk sampleW "out" fsWithS1 (by decide) (by decide)

/-- C10: the six required fields are read before the existence check, so
a sample missing a required field makes `run_one_prompt` raise (the
exception escapes) with the filesystem untouched, for every filesystem,
in particular one where the output file of the sample already exists. -/
theorem C10_missing_field_raises (env : Env) (s : Sample) (dir : String)
    (fs : FS) (hwf : wellFormed s = false) :
    isRaised (run_one_prompt env s dir fs).1 = true ∧
      (run_one_prompt env s dir fs).2 = fs := by
  cases h1 : dictGet s "video_id" with
  | none => simp [run_one_prompt, h1, isRaised]
  | some vid =>
  cases h2 : dictGet s "qid" with
  | none => simp [run_one_prompt, h1, h2, isRaised]
  | some q =>
  cases h3 : dictGet s "persona" with
  | none => simp [run_one_prompt, h1, h2, h3, isRaised]
  | some pe =>
  cases h4 : dictGet s "question" with
  | none => simp [run_one_prompt, h1, h2, h3, h4, isRaised]
  | some qu =>
  cases h5 : dictGet s "model a answer" with
  | none => simp [run_one_prompt, h1, h2, h3, h4, h5, isRaised]
  | some a =>
  cases h6 : dictGet s "model b answer" with
  | none => simp [run_one_prompt, h1, h2, h3, h4, h5, h6, isRaised]
  | some b =>
    exfalso
    have ht : wellFormed s = true := by
      unfold wellFormed requiredFields
      simp [List.all_cons, h1, h2, h3, h4, h5, h6]
    rw [ht] at hwf
    exact Bool.noConfusion hwf

/-- Witness for C10: a sample missing `persona` raises even though its
output file already exists. -/
theorem C10_missing_field_raises_witness :
    isRaised (run_one_prompt envOk sampleBad "out" fsWithS1).1 = true ∧
      (run_one_prompt envOk sampleBad "out" fsWithS1).2 = fsWithS1 :=
  C10_missing_field_raises envOk sampleBad "out" fsWithS1 (by decide)

/-- C1 counterexample: contrary to the claim, an exception raised in
step 3 (unknown video identifier) is NOT caught at the `run_one_prompt`
boundary: it escapes, and the orchestrator re-raises it, aborting the
batch; likewise a `KeyError` from a sample missing a required field
escapes. -/
theorem C1_step3_escape_cex :
    run_one_prompt envNoVideo sampleW "out" [] =
      (RunResult.raised ("unknown video_id: " ++ "v1"), []) ∧
    multi_process_request envNoVideo [sampleW] "out" [] =
      Except.error ("unknown video_id: " ++ "v1") ∧
    run_one_prompt envOk sampleBad "out" fsWithS1 =
      (RunResult.raised "KeyError: persona", fsWithS1) :=
  ⟨rfl, rfl, rfl⟩

/-- C1 as amended: an exception raised in steps 4-7 - in this embedding
the judge-client invocation of step 5, the other steps in the `try` block
being total - is caught at the `run_one_prompt` boundary, logged with the
video identifier and the intended output path, and converted into no
output written, with the filesystem unchanged. -/
theorem C1_steps4to7_caught (env : Env) (s : Sample) (dir : String)
    (fs : FS) (vid q pe qu a b vi : String)
    (h1 : dictGet s "video_id" = some vid) (h2 : dictGet s "qid" = some q)
    (h3 : dictGet s "persona" = some pe) (h4 : dictGet s "question" = some qu)
    (h5 : dictGet s "model a answer" = some a)
    (h6 : dictGet s "model b answer" = some b)
    (hnex : fsExists fs (pathOf dir q) = false)
    (hv : env.get_w_video_id vid = some vi)
    (hr : env.request vi (format_role pe qu a b) = none) :
    run_one_prompt env s dir fs =
      (RunResult.logged vid (pathOf dir q), fs) :=
  run_one_prompt_eq_logged env s dir fs vid q pe qu a b vi
    h1 h2 h3 h4 h5 h6 hnex hv hr

/-- Witness for the amended C1: a failing judge call is caught and
logged. -/
theorem C1_steps4to7_caught_witness :
    run_one_prompt envJudgeFail sampleW "out" [] =
      (RunResult.logged "v1" (pathOf "out" "s1"), []) :=
  C1_steps4to7_caught envJudgeFail sampleW "out" [] "v1" "s1" "p" "q" "a" "b"
    "v1" rfl rfl rfl rfl rfl rfl rfl rfl rfl

/-- C3 counterexample: on a successful run the persisted record stores
the raw judge reply under the key `GPT4o Judge response`, not under
`judge_raw_response` as the claim states - the latter key is absent. -/
theorem C3_raw_reply_field_cex :
    fsLookup (run_one_prompt envOk sampleW "out" []).2 (pathOf "out" "s1") =
      some [enrich sampleW respW] ∧
    dictGet (enrich sampleW respW) "judge_raw_response" = none ∧
    dictGet (enrich sampleW respW) "GPT4o Judge response" = some respW :=
  ⟨rfl, rfl, rfl⟩

/-- C3 as amended: a successful run persists exactly one record to the
output path - the sample enriched with the raw reply under the key
`GPT4o Judge response` (kept there as long as no parsed section label
collides with that key) and one field per parsed key; for the reply of
the end-to-end scenario the persisted `Overall Judge` field is `A`. -/
theorem C3_success_persists_record (env : Env) (s : Sample) (dir : String)
    (fs : FS) (vid q pe qu a b vi resp : String)
    (h1 : dictGet s "video_id" = some vid) (h2 : dictGet s "qid" = some q)
    (h3 : dictGet s "persona" = some pe) (h4 : dictGet s "question" = some qu)
    (h5 : dictGet s "model a answer" = some a)
    (h6 : dictGet s "model b answer" = some b)
    (hnex : fsExists fs (pathOf dir q) = false)
    (hv : env.get_w_video_id vid = some vi)
    (hr : env.request vi (format_role pe qu a b) = some resp) :
    run_one_prompt env s dir fs =
      (RunResult.wrote (pathOf dir q),
        dump_jsonl [enrich s resp] (pathOf dir q) fs) ∧
    fsLookup (run_one_prompt env s dir fs).2 (pathOf dir q) =
      some [enrich s resp] ∧
    ((∀ p ∈ response_parse resp, p.1 ≠ "GPT4o Judge response") →
      dictGet (enrich s resp) "GPT4o Judge response" = some resp) ∧
    (∀ p ∈ response_parse resp, dictGet (enrich s resp) p.1 = some p.2) ∧
    (∀ f, (dictGet s f).isSome = true →
      (dictGet (enrich s resp) f).isSome = true) ∧
    (resp = respW → dictGet (enrich s resp) "Overall Judge" = some "A") := by
  have hrun := run_one_prompt_eq_wrote env s dir fs vid q pe qu a b vi resp
    h1 h2 h3 h4 h5 h6 hnex hv hr
  refine ⟨hrun, ?_, ?_, ?_, ?_, ?_⟩
  · rw [hrun]
    show fsLookup (dump_jsonl [enrich s resp] (pathOf dir q) fs)
      (pathOf dir q) = some [enrich s resp]
    rw [dump_jsonl_of_absent _ _ _ hnex]
    exact fsLookup_append_self fs (pathOf dir q) [enrich s resp] hnex
  · intro hne
    unfold enrich
    rw [dictGet_foldl_of_absent _ _ _ hne]
    exact dictGet_dictInsert_self s "GPT4o Judge response" resp
  · intro p hp
    unfold enrich
    exact dictGet_foldl_of_mem _ _ p.1 p.2 (by simpa using hp)
      (response_parse_keys_nodup resp)
  · intro f hf
    unfold enrich
    exact isSome_dictGet_foldl _ _ f
      (isSome_dictGet_dictInsert s "GPT4o Judge response" resp f hf)
  · intro he
    subst he
    unfold enrich
    exact dictGet_foldl_of_mem _ _ "Overall Judge" "A" (by decide)
      (response_parse_keys_nodup respW)

/-- Witness for the amended C3: the end-to-end scenario writes one record
whose `Overall Judge` field is `A`. -/
theorem C3_success_persists_record_witness :
    run_one_prompt envOk sampleW "out" [] =
      (RunResult.wrote (pathOf "out" "s1"),
        dump_jsonl [enrich sampleW respW] (pathOf "out" "s1") []) ∧
    dictGet (enrich sampleW respW) "Overall Judge" = some "A" :=
  ⟨(C3_success_persists_record envOk sampleW "out" [] "v1" "s1" "p" "q" "a"
      "b" "v1" respW rfl rfl rfl rfl rfl rfl rfl rfl rfl).1,
    (C3_success_persists_record envOk sampleW "out" [] "v1" "s1" "p" "q" "a"
      "b" "v1" respW rfl rfl rfl rfl rfl rfl rfl rfl rfl).2.2.2.2.2 rfl⟩

/-- C8 counterexample: a judge reply whose section label equals a
required field name overwrites that field in the persisted record - the
merge does not only add fields: `qid` changes from `s1` to `X`. -/
theorem C8_label_collision_cex :
    dictGet sampleW "qid" = some "s1" ∧
    fsLookup (run_one_prompt envQidReply sampleW "out" []).2
      (pathOf "out" "s1") = some [enrich sampleW "[qid]\nX\n"] ∧
    dictGet (enrich sampleW "[qid]\nX\n") "qid" = some "X" :=
  ⟨rfl, rfl, rfl⟩

/-- C8 as amended: on a successful run the persisted record is the
enriched sample, and every required field whose name collides with no
parsed section label keeps its original value (the reserved raw-reply key
differs from all six required names). -/
theorem C8_merge_preserves_fields (env : Env) (s : Sample) (dir : String)
    (fs : FS) (vid q pe qu a b vi resp : String)
    (h1 : dictGet s "video_id" = some vid) (h2 : dictGet s "qid" = some q)
    (h3 : dictGet s "persona" = some pe) (h4 : dictGet s "question" = some qu)
    (h5 : dictGet s "model a answer" = some a)
    (h6 : dictGet s "model b answer" = some b)
    (hnex : fsExists fs (pathOf dir q) = false)
    (hv : env.get_w_video_id vid = some vi)
    (hr : env.request vi (format_role pe qu a b) = some resp)
    (hdisj : ∀ p ∈ response_parse resp, p.1 ∉ requiredFields) :
    fsLookup (run_one_prompt env s dir fs).2 (pathOf dir q) =
      some [enrich s resp] ∧
    ∀ f ∈ requiredFields, dictGet (enrich s resp) f = dictGet s f := by
  have hrun := run_one_prompt_eq_wrote env s dir fs vid q pe qu a b vi resp
    h1 h2 h3 h4 h5 h6 hnex hv hr
  constructor
  · rw [hrun]
    show fsLookup (dump_jsonl [enrich s resp] (pathOf dir q) fs)
      (pathOf dir q) = some [enrich s resp]
    rw [dump_jsonl_of_absent _ _ _ hnex]
    exact fsLookup_append_self fs (pathOf dir q) [enrich s resp] hnex
  · intro f hf
    have hne : f ≠ "GPT4o Judge response" := by
      simp only [requiredFields, List.mem_cons, List.not_mem_nil,
        or_false] at hf
      rcases hf with rfl | rfl | rfl | rfl | rfl | rfl <;> decide
    unfold enrich
    rw [dictGet_foldl_of_absent _ _ f
      (fun p hp he => hdisj p hp (he ▸ hf))]
    exact dictGet_dictInsert_ne s "GPT4o Judge response" resp f hne

/-- Witness for the amended C8: with the scenario reply, the `qid` field
of the persisted record equals the original `qid` of the sample. -/
theorem C8_merge_preserves_fields_witness :
    dictGet (enrich sampleW respW) "qid" = dictGet sampleW "qid" :=
  (C8_merge_preserves_fields envOk sampleW "out" [] "v1" "s1" "p" "q" "a" "b"
      "v1" respW rfl rfl rfl rfl rfl rfl rfl rfl rfl (by decide)).2
    "qid" (by decide)

/-! ### Batch lemmas -/

theorem data_append (s t : String) : (s ++ t).data = s.data ++ t.data := rfl

theorem pathOf_inj (dir q1 q2 : String) (h : pathOf dir q1 = pathOf dir q2) :
    q1 = q2 := by
  unfold pathOf at h
  have h2 := congrArg String.data h
  simp only [data_append] at h2
  exact congrArg String.mk
    (List.append_cancel_left (List.append_cancel_right h2))

theorem judgeCall_eq (env : Env) (s : Sample) (vid pe qu a b vi : String)
    (h1 : dictGet s "video_id" = some vid)
    (h3 : dictGet s "persona" = some pe) (h4 : dictGet s "question" = some qu)
    (h5 : dictGet s "model a answer" = some a)
    (h6 : dictGet s "model b answer" = some b)
    (hv : env.get_w_video_id vid = some vi) :
    judgeCall env s = env.request vi (format_role pe qu a b) := by
  simp [judgeCall, h1, h3, h4, h5, h6, hv]

theorem produced_cons_none (env : Env) (dir : String) (s : Sample)
    (rest : List Sample) (h : judgeCall env s = none) :
    produced env dir (s :: rest) = produced env dir rest := by
  simp [produced, List.filterMap_cons, h]

theorem produced_cons_some (env : Env) (dir : String) (s : Sample)
    (rest : List Sample) (r : String) (h : judgeCall env s = some r) :
    produced env dir (s :: rest) =
      (samplePath dir s, [enrich s r]) :: produced env dir rest := by
  simp [produced, List.filterMap_cons, h]

theorem fsExists_of_mem (fs : FS) (p : String) (r : List Sample)
    (h : (p, r) ∈ fs) : fsExists fs p = true := by
  have hfind : (List.find? (fun e => e.1 == p) fs).isSome = true :=
    List.find?_isSome.2 ⟨(p, r), h, beq_self_eq_true p⟩
  obtain ⟨x, hx⟩ := Option.isSome_iff_exists.1 hfind
  unfold fsExists fsLookup
  rw [hx]
  rfl

theorem mem_produced_elim (env : Env) (dir : String) (data : List Sample)
    (e : String × List Sample) (he : e ∈ produced env dir data) :
    ∃ s ∈ data, ∃ r, judgeCall env s = some r ∧
      e = (samplePath dir s, [enrich s r]) := by
  unfold produced at he
  obtain ⟨s, hs, hf⟩ := List.mem_filterMap.1 he
  cases hjc : judgeCall env s with
  | none =>
    rw [hjc] at hf
    exact absurd hf (by simp)
  | some r =>
    rw [hjc] at hf
    have h2 : (samplePath dir s, [enrich s r]) = e := Option.some_inj.1 hf
    exact ⟨s, hs, r, hjc, h2.symm⟩

theorem mem_produced_intro (env : Env) (dir : String) (data : List Sample)
    (s : Sample) (r : String) (hs : s ∈ data)
    (hjc : judgeCall env s = some r) :
    (samplePath dir s, [enrich s r]) ∈ produced env dir data := by
  unfold produced
  exact List.mem_filterMap.2 ⟨s, hs, by rw [hjc]; rfl⟩

theorem runBatch_all_ok (env : Env) (dir : String) (data : List Sample) :
    ∀ fs : FS,
      (∀ s ∈ data, wellFormed s = true) →
      (∀ s ∈ data, ∃ vid, dictGet s "video_id" = some vid ∧
        (env.get_w_video_id vid).isSome = true) →
      (data.map (samplePath dir)).Nodup →
      (∀ s ∈ data, fsExists fs (samplePath dir s) = false) →
      runBatch env data dir fs = (fs ++ produced env dir data, []) := by
  induction data with
  | nil =>
    intro fs _ _ _ _
    rw [show produced env dir ([] : List Sample) = [] from rfl,
      List.append_nil]
    rfl
  | cons s rest ih =>
    intro fs hwf hvid hnd hnex
    obtain ⟨vid, q, pe, qu, a, b, h1, h2, h3, h4, h5, h6⟩ :=
      wellFormed_elim s (hwf s (List.mem_cons_self s rest))
    obtain ⟨vid', hv', hvs⟩ := hvid s (List.mem_cons_self s rest)
    have hvv : vid' = vid := by
      rw [h1] at hv'
      exact (Option.some_inj.1 hv').symm
    rw [hvv] at hvs
    obtain ⟨vi, hvi⟩ := Option.isSome_iff_exists.1 hvs
    have hpath : samplePath dir s = pathOf dir q := by
      unfold samplePath
      rw [qidOf_eq s q h2]
    have hnexs : fsExists fs (pathOf dir q) = false := by
      rw [← hpath]
      exact hnex s (List.mem_cons_self s rest)
    rw [List.map_cons, List.nodup_cons] at hnd
    have hjc := judgeCall_eq env s vid pe qu a b vi h1 h3 h4 h5 h6 hvi
    cases hr : env.request vi (format_role pe qu a b) with
    | none =>
      have hrun := run_one_prompt_eq_logged env s dir fs vid q pe qu a b vi
        h1 h2 h3 h4 h5 h6 hnexs hvi hr
      have hstep : runBatch env (s :: rest) dir fs =
          runBatch env rest dir fs := by
        simp [runBatch, hrun]
      rw [hstep,
        ih fs (fun t ht => hwf t (List.mem_cons_of_mem s ht))
          (fun t ht => hvid t (List.mem_cons_of_mem s ht)) hnd.2
          (fun t ht => hnex t (List.mem_cons_of_mem s ht)),
        produced_cons_none env dir s rest (by rw [hjc]; exact hr)]
    | some r =>
      have hrun := run_one_prompt_eq_wrote env s dir fs vid q pe qu a b vi r
        h1 h2 h3 h4 h5 h6 hnexs hvi hr
      have hdump : dump_jsonl [enrich s r] (pathOf dir q) fs =
          fs ++ [(pathOf dir q, [enrich s r])] :=
        dump_jsonl_of_absent [enrich s r] (pathOf dir q) fs hnexs
      have hstep : runBatch env (s :: rest) dir fs =
          runBatch env rest dir (fs ++ [(pathOf dir q, [enrich s r])]) := by
        simp [runBatch, hrun, hdump]
      have hnex' : ∀ t ∈ rest,
          fsExists (fs ++ [(pathOf dir q, [enrich s r])])
            (samplePath dir t) = false := by
        intro t ht
        rw [fsExists_append_single]
        have hne : (pathOf dir q == samplePath dir t) = false := by
          apply beq_eq_false_iff_ne.mpr
          intro he
          exact hnd.1 (by
            rw [← hpath] at he
            rw [he]
            exact List.mem_map_of_mem (samplePath dir) ht)
        rw [hnex t (List.mem_cons_of_mem s ht), hne]
        rfl
      rw [hstep,
        ih (fs ++ [(pathOf dir q, [enrich s r])])
          (fun t ht => hwf t (List.mem_cons_of_mem s ht))
          (fun t ht => hvid t (List.mem_cons_of_mem s ht)) hnd.2 hnex',
        produced_cons_some env dir s rest r (by rw [hjc]; exact hr),
        hpath, List.append_assoc, List.singleton_append]

theorem multi_process_request_all_ok (env : Env) (dir : String)
    (data : List Sample) (fs : FS)
    (hwf : ∀ s ∈ data, wellFormed s = true)
    (hvid : ∀ s ∈ data, ∃ vid, dictGet s "video_id" = some vid ∧
      (env.get_w_video_id vid).isSome = true)
    (hnd : (data.map (samplePath dir)).Nodup)
    (hnex : ∀ s ∈ data, fsExists fs (samplePath dir s) = false) :
    multi_process_request env data dir fs =
      Except.ok (fs ++ produced env dir data) := by
  unfold multi_process_request
  rw [runBatch_all_ok env dir data fs hwf hvid hnd hnex]

theorem produced_length (env : Env) (dir : String) (data : List Sample) :
    (produced env dir data).length =
      data.countP (fun s => (judgeCall env s).isSome) := by
  induction data with
  | nil => rfl
  | cons s rest ih =>
    cases hjc : judgeCall env s with
    | none =>
      rw [produced_cons_none env dir s rest hjc, List.countP_cons, ih, hjc]
      rfl
    | some r =>
      rw [produced_cons_some env dir s rest r hjc, List.length_cons,
        List.countP_cons, ih, hjc]
      rfl

theorem countP_congrB {α : Type} (l : List α) (p r : α → Bool)
    (h : ∀ a ∈ l, p a = r a) : l.countP p = l.countP r := by
  induction l with
  | nil => rfl
  | cons a l ih =>
    rw [List.countP_cons, List.countP_cons,
      h a (List.mem_cons_self a l),
      ih (fun b hb => h b (List.mem_cons_of_mem a hb))]

theorem countP_add_countP_not {α : Type} (l : List α) (p : α → Bool) :
    l.countP p + l.countP (fun a => !(p a)) = l.length := by
  induction l with
  | nil => rfl
  | cons a l ih =>
    rw [List.countP_cons, List.countP_cons]
    cases hp : p a <;> simp [hp] <;> omega

theorem countP_qid_eq_one (Q1 : String) (data : List Sample)
    (hnd : (data.map qidOf).Nodup) (hex : ∃ s ∈ data, qidOf s = Q1) :
    data.countP (fun s => qidOf s == Q1) = 1 := by
  induction data with
  | nil =>
    rcases hex with ⟨s, hs, _⟩
    exact absurd hs (List.not_mem_nil s)
  | cons s rest ih =>
    rw [List.map_cons, List.nodup_cons] at hnd
    rcases hex with ⟨s0, hs0, hq0⟩
    rcases List.mem_cons.1 hs0 with he | hmem
    · subst he
      have hzero : rest.countP (fun t => qidOf t == Q1) = 0 := by
        rw [List.countP_eq_zero]
        intro t ht hb
        have hqt : qidOf t = Q1 := by simpa using hb
        exact hnd.1 (by
          rw [hq0, ← hqt]
          exact List.mem_map_of_mem qidOf ht)
      rw [List.countP_cons, hzero]
      have hb : (qidOf s0 == Q1) = true := by
        rw [hq0]
        exact beq_self_eq_true Q1
      simp [hb]
    · have hps : (qidOf s == Q1) = false := by
        apply beq_eq_false_iff_ne.mpr
        intro he
        exact hnd.1 (by
          rw [he, ← hq0]
          exact List.mem_map_of_mem qidOf hmem)
      rw [List.countP_cons, hps]
      simp only [Bool.false_eq_true, if_false, Nat.add_zero]
      exact ih hnd.2 ⟨s0, hmem, hq0⟩

/-- C4: in a batch run into an empty output directory where every sample
is well-formed with a known video and pairwise-distinct qids, and the
judge client raises exactly for the sample(s) with qid `Q1` (of which
there is one), the batch completes without aborting, produces exactly
N - 1 output files, writes no file for `Q1`, and writes one file for
every other sample. -/
theorem C4_single_judge_failure_isolated (env : Env) (dir Q1 : String)
    (data : List Sample)
    (hwf : ∀ s ∈ data, wellFormed s = true)
    (hvid : ∀ s ∈ data, ∃ vid, dictGet s "video_id" = some vid ∧
      (env.get_w_video_id vid).isSome = true)
    (hnd : (data.map qidOf).Nodup)
    (hQ : ∃ s ∈ data, qidOf s = Q1)
    (hj : ∀ s ∈ data, ((judgeCall env s).isSome = true ↔ qidOf s ≠ Q1)) :
    multi_process_request env data dir [] =
      Except.ok (produced env dir data) ∧
    (produced env dir data).length = data.length - 1 ∧
    fsLookup (produced env dir data) (pathOf dir Q1) = none ∧
    (∀ s ∈ data, qidOf s ≠ Q1 →
      fsExists (produced env dir data) (samplePath dir s) = true) := by
  have hndpaths : (data.map (samplePath dir)).Nodup := by
    have hmm : data.map (samplePath dir) = (data.map qidOf).map (pathOf dir) := by
      rw [List.map_map]
      rfl
    rw [hmm]
    exact hnd.map (fun a b h => pathOf_inj dir a b h)
  refine ⟨?_, ?_, ?_, ?_⟩
  · have := multi_process_request_all_ok env dir data [] hwf hvid hndpaths
      (fun s _ => rfl)
    rwa [List.nil_append] at this
  · rw [produced_length env dir data]
    have hcong : ∀ s ∈ data,
        (judgeCall env s).isSome = !(qidOf s == Q1) := by
      intro s hs
      by_cases hq : qidOf s = Q1
      · have hnt : (judgeCall env s).isSome ≠ true :=
          fun ht => ((hj s hs).1 ht) hq
        have hf : (judgeCall env s).isSome = false := by
          simpa only [Bool.not_eq_true] using hnt
        rw [hf, hq, beq_self_eq_true]
        rfl
      · rw [(hj s hs).2 hq, beq_eq_false_iff_ne.mpr hq]
        rfl
    rw [countP_congrB data _ _ hcong]
    have hadd := countP_add_countP_not data (fun s => qidOf s == Q1)
    have hone := countP_qid_eq_one Q1 data hnd hQ
    have hcp : data.countP (fun s => !(qidOf s == Q1)) =
        data.countP (fun a => !((fun s => qidOf s == Q1) a)) := rfl
    rw [hcp]
    omega
  · apply fsLookup_eq_none_of_all_ne
    intro e he
    obtain ⟨s, hs, r, hjc, hes⟩ := mem_produced_elim env dir data e he
    rw [hes]
    have hqne : qidOf s ≠ Q1 :=
      (hj s hs).1 (by rw [hjc]; rfl)
    intro hp
    exact hqne (pathOf_inj dir (qidOf s) Q1 hp)
  · intro s hs hqne
    obtain ⟨r, hjc⟩ := Option.isSome_iff_exists.1 ((hj s hs).2 hqne)
    exact fsExists_of_mem (produced env dir data) (samplePath dir s)
      [enrich s r] (mem_produced_intro env dir data s r hs hjc)

/-- Witness for C4: a two-sample batch where the judge fails exactly on
the first sample yields one output file and none for the failed qid. -/
theorem C4_single_judge_failure_isolated_witness :
    multi_process_request envOneFail [sampleW, sampleW2] "out" [] =
      Except.ok (produced envOneFail "out" [sampleW, sampleW2]) ∧
    (produced envOneFail "out" [sampleW, sampleW2]).length =
      [sampleW, sampleW2].length - 1 ∧
    fsLookup (produced envOneFail "out" [sampleW, sampleW2])
      (pathOf "out" "s1") = none := by
  have h := C4_single_judge_failure_isolated envOneFail "out" "s1"
    [sampleW, sampleW2]
    (by decide)
    (by
      intro s hs
      simp only [List.mem_cons, List.not_mem_nil, or_false] at hs
      rcases hs with rfl | rfl
      · exact ⟨"v1", rfl, rfl⟩
      · exact ⟨"v2", rfl, rfl⟩)
    (by decide)
    ⟨sampleW, List.mem_cons_self sampleW [sampleW2], rfl⟩
    (by decide)
  exact ⟨h.1, h.2.1, h.2.2.1⟩

end LmmJudge
